import Mathlib

/-!
# terraform-provider-fivetran: provider entry point and mock-test helpers

A shallow embedding of `fivetran/provider.go` and `fivetran/tests/mock/common.go`,
followed by a model of the schema-tree differ that backs the
`fivetran_connector_schema_config` resource.

Conventions of the embedding:

* a Go `interface{}` value is a `Value`; the universe covers the untyped nil interface,
  `bool`, `int`, `string`, `[]interface{}` and `map[string]interface{}` (floating point
  numbers, typed nil slices and typed nil maps are outside it);
* a Go `map[string]T` is an association list read by first binding (`GoMap.get`) and
  written by `GoMap.set`;
* `*testing.T` is the list of failures reported so far, threaded through every helper;
  a failure records the arguments of the reporting call instead of the formatted text;
* a run-time panic is the `Except.error` result.
-/

namespace Fivetran

/-! ## Go values -/

/-- A dynamic Go value held in an `interface{}`. -/
inductive Value where
  | nil
  | bool (b : Bool)
  | int (i : Int)
  | str (s : String)
  | slice (xs : List Value)
  | map (kvs : List (String × Value))

/-- A Go `map[string]interface{}`, as an association list; the first binding of a key is
the one the map holds. -/
abbrev GoMap := List (String × Value)

/-- Index expression `v, ok := m[key]` in its option form. -/
def GoMap.get {α : Type} (key : String) : List (String × α) → Option α
  | [] => none
  | (k, v) :: rest => if k = key then some v else GoMap.get key rest

/-- Assignment `m[key] = v`: the binding of `key` is replaced, or added when absent. -/
def GoMap.set {α : Type} (key : String) (v : α) : List (String × α) → List (String × α)
  | [] => [(key, v)]
  | (k, w) :: rest => if k = key then (k, v) :: rest else (k, w) :: GoMap.set key v rest

/-- Run-time panics the embedded code can raise. -/
inductive Panic where
  /-- Comparison `==` or `!=` of two interface values of the same uncomparable dynamic type. -/
  | uncomparable
  /-- Call of `reflect.Value.Len` on a value that is not a string, slice or map. -/
  | lenOfNonCollection
  /-- A failed single-result type assertion `x.(T)`. -/
  | typeAssertion
deriving DecidableEq

mutual
/-- Library function `reflect.DeepEqual` on the value universe: equal dynamic type, equal
scalars, slices equal element by element, maps with as many keys and deeply equal values
under each key. -/
def DeepEqual : Value → Value → Bool
  | .nil, .nil => true
  | .bool a, .bool b => a == b
  | .int a, .int b => a == b
  | .str a, .str b => a == b
  | .slice a, .slice b => DeepEqualSlice a b
  | .map a, .map b => a.length == b.length && DeepEqualMap a b
  | _, _ => false
termination_by structural x => x
/-- Element-wise part of `DeepEqual` for slices. -/
def DeepEqualSlice : List Value → List Value → Bool
  | [], [] => true
  | x :: xs, y :: ys => DeepEqual x y && DeepEqualSlice xs ys
  | _, _ => false
termination_by structural x => x
/-- Key-wise part of `DeepEqual` for maps. -/
def DeepEqualMap : List (String × Value) → List (String × Value) → Bool
  | [], _ => true
  | (k, v) :: rest, b =>
    (match GoMap.get k b with
     | some w => DeepEqual v w
     | none => false) && DeepEqualMap rest b
termination_by structural x => x
end

/-- Go comparison `v != value` of two interface values: values of different dynamic types
differ, values of the same comparable type are compared, and two slices or two maps make
the comparison panic. -/
def interfaceNe : Value → Value → Except Panic Bool
  | .nil, .nil => .ok false
  | .bool a, .bool b => .ok (a != b)
  | .int a, .int b => .ok (a != b)
  | .str a, .str b => .ok (a != b)
  | .slice _, .slice _ => .error .uncomparable
  | .map _, .map _ => .error .uncomparable
  | _, _ => .ok true

/-- Library call `reflect.ValueOf(v).Len()`. -/
def reflectLen : Value → Except Panic Int
  | .str s => .ok s.utf8ByteSize
  | .slice xs => .ok xs.length
  | .map kvs => .ok kvs.length
  | _ => .error .lenOfNonCollection

/-! ## provider.go -/

/-- REST API response objects limit per HTTP request. -/
def limit : Nat := 1000

/-- Current provider version. -/
def version : String := "0.6.5"

/-- Value types of the plugin SDK that provider.go uses. -/
inductive ValueType where
  | TypeString
deriving DecidableEq

/-- One attribute of the provider schema: its `Type` (field `Kind`), its flags, and the
environment variable its default is read from. -/
structure SchemaField where
  Kind : ValueType
  Required : Bool
  Sensitive : Bool
  EnvDefault : String
deriving DecidableEq

/-- The resource and data-source constructors `Provider` calls; they live in other files
of the package and are taken as given. -/
structure ResourceFuncs (R : Type) where
  resourceUser : R
  resourceGroup : R
  resourceGroupUsers : R
  resourceDestination : R
  resourceConnector : R
  resourceSchemaConfig : R
  dataSourceUser : R
  dataSourceUsers : R
  dataSourceGroup : R
  dataSourceGroups : R
  dataSourceGroupConnectors : R
  dataSourceGroupUsers : R
  dataSourceDestination : R
  dataSourceConnectorsMetadata : R
  dataSourceConnector : R

/-- The `schema.Provider` literal. -/
structure ProviderValue (R : Type) where
  Schema : List (String × SchemaField)
  ResourcesMap : List (String × R)
  DataSourcesMap : List (String × R)

/-- Function `Provider` of provider.go. -/
def Provider {R : Type} (f : ResourceFuncs R) : ProviderValue R where
  Schema :=
    [("api_key",
       { Kind := .TypeString, Required := true, Sensitive := false,
         EnvDefault := "FIVETRAN_APIKEY" }),
     ("api_secret",
       { Kind := .TypeString, Required := true, Sensitive := true,
         EnvDefault := "FIVETRAN_APISECRET" })]
  ResourcesMap :=
    [("fivetran_user", f.resourceUser),
     ("fivetran_group", f.resourceGroup),
     ("fivetran_group_users", f.resourceGroupUsers),
     ("fivetran_destination", f.resourceDestination),
     ("fivetran_connector", f.resourceConnector),
     ("fivetran_connector_schema_config", f.resourceSchemaConfig)]
  DataSourcesMap :=
    [("fivetran_user", f.dataSourceUser),
     ("fivetran_users", f.dataSourceUsers),
     ("fivetran_group", f.dataSourceGroup),
     ("fivetran_groups", f.dataSourceGroups),
     ("fivetran_group_connectors", f.dataSourceGroupConnectors),
     ("fivetran_group_users", f.dataSourceGroupUsers),
     ("fivetran_destination", f.dataSourceDestination),
     ("fivetran_connectors_metadata", f.dataSourceConnectorsMetadata),
     ("fivetran_connector", f.dataSourceConnector)]

/-- The SDK client as far as provider.go touches it: the two credentials handed to
`fivetran.New` and the user agent set by `CustomUserAgent`. -/
structure Client where
  apiKey : String
  apiSecret : String
  customUserAgent : String
deriving DecidableEq

/-- SDK constructor `fivetran.New(apiKey, apiSecret)`. -/
def Client.New (apiKey apiSecret : String) : Client :=
  { apiKey := apiKey, apiSecret := apiSecret, customUserAgent := "" }

/-- SDK setter `CustomUserAgent`. -/
def Client.CustomUserAgent (c : Client) (agent : String) : Client :=
  { c with customUserAgent := agent }

/-- A diagnostic (error or warning) of the plugin SDK. -/
structure Diagnostic where
  Summary : String
deriving DecidableEq

/-- The configuration values handed to `providerConfigure`, read with `d.Get`. -/
abbrev ResourceData := String → Value

/-- Type assertion `x.(string)`. -/
def assertString : Value → Except Panic String
  | .str s => .ok s
  | _ => .error .typeAssertion

/-- Function `providerConfigure` of provider.go. -/
def providerConfigure (d : ResourceData) : Except Panic (Client × List Diagnostic) := do
  let apiKey ← assertString (d "api_key")
  let apiSecret ← assertString (d "api_secret")
  let fivetranClient := Client.New apiKey apiSecret
  let fivetranClient := fivetranClient.CustomUserAgent ("terraform-provider-fivetran/" ++ version)
  pure (fivetranClient, [])

/-! ## tests/mock/common.go -/

namespace Mock

/-- One failure reported on a `*testing.T`, recorded as the reporting call. -/
inductive TestError where
  /-- Call `t.Errorf(format, arg)` made directly by a helper. -/
  | errorf (format : String) (arg : String)
  /-- Call `printError(t, actual, expected)`. -/
  | printError (actual expected : Value)
  /-- Call `printErrorWithMessage(t, actual, expected, message)`. -/
  | printErrorWithMessage (actual expected : Value) (message : String)

/-- The failures reported so far on a `*testing.T`. -/
abbrev T := List TestError

def TEST_KEY : String := "test_key"

def TEST_SECRET : String := "test_secret"

/-- The process environment as `os.Getenv` sees it: an unset variable reads as "". -/
abbrev Env := String → String

/-- Library call `os.Setenv`. -/
def Setenv (key value : String) (env : Env) : Env :=
  fun k => if k = key then value else env k

/-- The environment part of the package `init`: the client, mock client and provider it
also builds are package variables and leave the environment alone. -/
def init (env : Env) : Env :=
  let env := if env "TF_ACC" = "" then Setenv "TF_ACC" "True" env else env
  if env "FIVETRAN_APIKEY" = "" then
    Setenv "FIVETRAN_APISECRET" TEST_SECRET (Setenv "FIVETRAN_APIKEY" TEST_KEY env)
  else env

/-- A byte of a request body. -/
abbrev Byte := Fin 256

/-- A request body (`io.ReadCloser`): the bytes still to be delivered, and the error that
ends the stream in place of EOF, if any. -/
structure Body where
  unread : List Byte
  fault : Option String
  closed : Bool

/-- Library call `io.ReadAll`: the bytes read, the error, and the drained reader. -/
def ReadAll (r : Body) : List Byte × Option String × Body :=
  (r.unread, r.fault, { r with unread := [] })

/-- Method `Close` of a body. -/
def Body.Close (r : Body) : Body := { r with closed := true }

/-- Expression `io.NopCloser(bytes.NewReader(b))`. -/
def NopCloserReader (b : List Byte) : Body :=
  { unread := b, fault := none, closed := false }

/-- The part of `http.Request` the helpers use. -/
structure Request where
  Method : String
  URL : String
  Body : Body

/-- Library function `json.Unmarshal(data, &result)`, taken as given: from the bytes and
the map it is handed, the map it leaves behind and its error. -/
abbrev Unmarshal := List Byte → GoMap → GoMap × Option String

/-- Function `requestBodyToJson`: the decoded map, the test log and the request after the
call. -/
def requestBodyToJson (unmarshal : Unmarshal) (t : T) (req : Request) : GoMap × T × Request :=
  let (bodyBytes, err, drained) := ReadAll req.Body
  let t := match err with
    | some e => t ++ [TestError.errorf "requestBodyToJson, cannot read request body: %s" e]
    | none => t
  let _closed := drained.Close
  let req := { req with Body := NopCloserReader bodyBytes }
  let (result, err) := unmarshal bodyBytes []
  let t := match err with
    | some e => t ++ [TestError.errorf "requestBodyToJson, cannot parse request body: %s" e]
    | none => t
  (result, t, req)

/-- The map `respBody` that `fivetranResponse` builds before encoding it. -/
def respBody (statusCode : String) (message : String) (data : Option GoMap) : GoMap :=
  let respBody : GoMap := [("code", Value.str statusCode)]
  let respBody := if message ≠ "" then GoMap.set "message" (Value.str message) respBody else respBody
  match data with
  | some d => GoMap.set "data" (Value.map d) respBody
  | none => respBody

/-- The mock HTTP response of `mock.NewResponse(req, code, body)`. -/
structure Response where
  Request : Request
  StatusCode : Int
  Body : String

/-- Library function `json.Marshal`, taken as given: the encoded text or an error. -/
abbrev Marshal := GoMap → Except String String

/-- Function `fivetranResponse`; `data` is `none` for a nil map. -/
def fivetranResponse (marshal : Marshal) (t : T) (req : Request) (statusCode : String)
    (code : Int) (message : String) (data : Option GoMap) : Response × T :=
  let body := respBody statusCode message data
  match marshal body with
  | .ok respBodyJson => ({ Request := req, StatusCode := code, Body := respBodyJson }, t)
  | .error e =>
    ({ Request := req, StatusCode := code, Body := "" },
     t ++ [TestError.errorf "fivetranSuccessResponse, cannot encode JSON: %s" e])

/-- Function `fivetranSuccessResponse`. -/
def fivetranSuccessResponse (marshal : Marshal) (t : T) (req : Request) (code : Int)
    (message : String) (data : Option GoMap) : Response × T :=
  fivetranResponse marshal t req "Success" code message data

/-- Function `printError`. -/
def printError (t : T) (actual expected : Value) : T :=
  t ++ [TestError.printError actual expected]

/-- Function `printErrorWithMessage`. -/
def printErrorWithMessage (t : T) (actual expected : Value) (message : String) : T :=
  t ++ [TestError.printErrorWithMessage actual expected message]

/-- Function `isEmpty`. -/
def isEmpty (actual : Value) : Except Panic Bool :=
  match actual with
  | .nil => .ok true
  | .str actualValue => .ok (actualValue == "")
  | other => do
    let n ← reflectLen other
    if n == 0 then pure true else pure false

/-- Function `assertEqual`. -/
def assertEqual (t : T) (actual expected : Value) : T :=
  if !DeepEqual expected actual then printError t actual expected else t

/-- Function `assertEmpty`. -/
def assertEmpty (t : T) (actual : Value) : Except Panic T := do
  let e ← isEmpty actual
  if !e then pure (printError t actual (.str "empty value")) else pure t

/-- Function `assertNotEmpty`. -/
def assertNotEmpty (t : T) (actual : Value) : Except Panic T := do
  let e ← isEmpty actual
  if e then pure (printError t actual (.str "none-empty value")) else pure t

/-- Function `assertKeyExists`. -/
def assertKeyExists (t : T) (source : GoMap) (key : String) : T :=
  match GoMap.get key source with
  | none => printError t (.str key) (.str "key not found in source")
  | some _ => t

/-- Function `contains`. -/
def contains (s : List Value) (e : Value) : Bool :=
  match s with
  | [] => false
  | a :: rest => if DeepEqual a e then true else contains rest e

/-- The `for _, a := range source` loop of `assertArrayItems`. -/
def assertArrayItemsLoop (t : T) (expected : List Value) : List Value → T
  | [] => t
  | a :: rest =>
    if !contains expected a then
      printErrorWithMessage t a (.str "") "Expected value not found in provided array"
    else assertArrayItemsLoop t expected rest

/-- Function `assertArrayItems`. -/
def assertArrayItems (t : T) (source expected : List Value) : T :=
  if source.length ≠ expected.length then
    printErrorWithMessage t (.int source.length) (.int expected.length) "Array size mismatch"
  else assertArrayItemsLoop t expected source

/-- Function `assertKeyExistsAndHasValue`. -/
def assertKeyExistsAndHasValue (t : T) (source : GoMap) (key : String) (value : Value) :
    Except Panic T :=
  match GoMap.get key source with
  | none => pure (printError t (.str key) (.str "key not found in source"))
  | some v => do
    let differs ← interfaceNe v value
    if differs then pure (printError t v value) else pure t

end Mock

/-! ## Schema tree differ of the `fivetran_connector_schema_config` resource

`resourceSchemaConfig` is registered in provider.go, and its implementation is in a file of
the package that is not part of this development. The differ below follows the design
document, sections 3 and 4.1. -/

namespace SchemaConfig

/-- Modelled from the spec: the SchemaTreeNode of section 3, which `resourceSchemaConfig`
(not available here) works on. A node has an identifying name, an inclusion flag, and its
children (schema, table, column). The flag is optional because section 4.1 speaks of a node
that "itself has none"; the children list stands for the mapping from child name to child,
read by first binding. -/
inductive SchemaTreeNode where
  | node (name : String) (flag : Option Bool) (children : List SchemaTreeNode)

/-- Name of a node. -/
def SchemaTreeNode.name : SchemaTreeNode → String
  | .node n _ _ => n

/-- Explicit inclusion flag of a node. -/
def SchemaTreeNode.flag : SchemaTreeNode → Option Bool
  | .node _ f _ => f

/-- Children of a node. -/
def SchemaTreeNode.children : SchemaTreeNode → List SchemaTreeNode
  | .node _ _ cs => cs

/-- Modelled from the spec: the four kinds of PatchOp of section 3. -/
inductive PatchKind where
  | setField
  | addChild
  | removeChild
  | noOp
deriving DecidableEq

/-- Modelled from the spec: a PatchOp of section 3, addressed by a path (ordered list of
node names) plus a new value. -/
structure PatchOp where
  kind : PatchKind
  path : List String
  value : Bool
deriving DecidableEq

/-- Modelled from the spec: the ReferenceError of sections 4.1 and 7, naming the unknown
path. -/
structure ReferenceError where
  path : List String
deriving DecidableEq

/-- Modelled from the spec: lookup in the mapping from child name to child of section 3
(the tree type of `resourceSchemaConfig` is not available). -/
def findChild (name : String) : List SchemaTreeNode → Option SchemaTreeNode
  | [] => none
  | c :: rest => if c.name = name then some c else findChild name rest

/-- Modelled from the spec: effective inclusion of an observed node, which the differ of
`resourceSchemaConfig` (not available) computes. By the invariant of section 3 an exclude
at any ancestor overrides the node, so below an excluded ancestor the node is excluded
whatever its own flag; otherwise (section 4.1 and the glossary) it is the node's own flag,
or the nearest ancestor's explicit decision when the node itself has none. `inherited` is
the effective inclusion of the parent. -/
def effectiveInclusion (inherited : Option Bool) (own : Option Bool) : Option Bool :=
  match inherited with
  | some false => some false
  | _ =>
    match own with
    | some b => some b
    | none => inherited

/-- Modelled from the spec: the set-field decision at one node (section 4.1): a patch when
the desired flag differs from the observed effective inclusion, none when the desired node
states no flag. -/
def flagPatch (path : List String) (desired : Option Bool) (effective : Option Bool) :
    List PatchOp :=
  match desired with
  | some b => if effective = some b then [] else [{ kind := .setField, path := path, value := b }]
  | none => []

mutual
/-- Modelled from the spec: the per-node step of the differ of section 4.1 (the source of
`resourceSchemaConfig` is not available). `path` names the ancestors and `inherited` is the
accumulated effective flag of the observed ancestors. The node's own patch comes first and
the patches of its children follow (pre-order). -/
def diffNode (path : List String) (inherited : Option Bool) :
    SchemaTreeNode → SchemaTreeNode → Except ReferenceError (List PatchOp)
  | .node dname dflag dchildren, .node _ oflag ochildren =>
    let here := path ++ [dname]
    let effective := effectiveInclusion inherited oflag
    match diffChildren here effective dchildren ochildren with
    | .ok below => .ok (flagPatch here dflag effective ++ below)
    | .error e => .error e
termination_by structural d => d
/-- Modelled from the spec: the children step of the differ of section 4.1. Every desired
child is compared with the observed child of the same name; a desired name the observed
mapping does not hold is a ReferenceError; observed children that desired does not mention
are not visited for patches. -/
def diffChildren (path : List String) (inherited : Option Bool) :
    List SchemaTreeNode → List SchemaTreeNode → Except ReferenceError (List PatchOp)
  | [], _ => .ok []
  | d :: rest, observed =>
    match findChild d.name observed with
    | none => .error { path := path ++ [d.name] }
    | some o =>
      match diffNode path inherited d o with
      | .error e => .error e
      | .ok first =>
        match diffChildren path inherited rest observed with
        | .error e => .error e
        | .ok others => .ok (first ++ others)
termination_by structural ds => ds
end

/-- Modelled from the spec: the contract `Diff(desired, observed)` of section 4.1, an
ordered sequence of PatchOp or a ReferenceError raised before any patch is handed out. -/
def Diff (desired observed : SchemaTreeNode) : Except ReferenceError (List PatchOp) :=
  if desired.name = observed.name then diffNode [] none desired observed
  else .error { path := [desired.name] }

mutual
/-- The paths of all nodes of a tree, each from the root of the tree down to the node, in
pre-order. -/
def nodePaths : SchemaTreeNode → List (List String)
  | .node n _ cs => [n] :: (childrenPaths cs).map (fun q => n :: q)
termination_by structural t => t
/-- The paths of all nodes of a list of sibling trees. -/
def childrenPaths : List SchemaTreeNode → List (List String)
  | [] => []
  | c :: rest => nodePaths c ++ childrenPaths rest
termination_by structural cs => cs
end

/-- The paths a tree mentions: those of its nodes. -/
def mentions (t : SchemaTreeNode) (p : List String) : Prop :=
  p ∈ nodePaths t

instance (t : SchemaTreeNode) (p : List String) : Decidable (mentions t p) :=
  inferInstanceAs (Decidable (p ∈ nodePaths t))

/-- The names of a list of siblings. -/
def siblingNames : List SchemaTreeNode → List String
  | [] => []
  | c :: rest => c.name :: siblingNames rest

mutual
/-- A tree whose child lists are mappings: no two siblings share a name. -/
def isMapping : SchemaTreeNode → Bool
  | .node _ _ cs => decide ((siblingNames cs).Nodup) && areMappings cs
termination_by structural t => t
/-- Every tree of a list has mappings for child lists. -/
def areMappings : List SchemaTreeNode → Bool
  | [] => true
  | c :: rest => isMapping c && areMappings rest
termination_by structural cs => cs
end

mutual
/-- No node of the tree is explicitly included (flag true) below an excluded node;
`excluded` tells whether an ancestor of the tree is excluded already. -/
def includedOnlyUnderIncluded (excluded : Bool) : SchemaTreeNode → Bool
  | .node _ f cs =>
    !(excluded && decide (f = some true))
      && allIncludedOnlyUnderIncluded (excluded || decide (f = some false)) cs
termination_by structural t => t
/-- The same for every tree of a list of siblings. -/
def allIncludedOnlyUnderIncluded (excluded : Bool) : List SchemaTreeNode → Bool
  | [] => true
  | c :: rest =>
    includedOnlyUnderIncluded excluded c && allIncludedOnlyUnderIncluded excluded rest
termination_by structural cs => cs
end

/-- A tree whose explicit flags agree with the effective inclusion of their nodes: no
node is explicitly included below an explicitly excluded ancestor. -/
def flagsAreEffective (t : SchemaTreeNode) : Bool :=
  includedOnlyUnderIncluded false t

/-- An excluded schema with a table that carries an include flag of its own. -/
def exampleExcludedSchema : SchemaTreeNode :=
  .node "schema_a" (some false) [.node "table_x" (some true) []]

/-- The observed tree of the first example of section 8 of the design document. -/
def exampleObserved : SchemaTreeNode :=
  .node "schema_a" (some true) [.node "table_x" (some true) [.node "col_1" (some true) []]]

/-- The desired tree of the first example of section 8 of the design document. -/
def exampleDesired : SchemaTreeNode :=
  .node "schema_a" (some true) [.node "table_x" (some true) [.node "col_1" (some false) []]]

/-- An observed tree with a second table and a column without a flag of its own. -/
def exampleObservedWide : SchemaTreeNode :=
  .node "schema_a" (some true)
    [.node "table_x" (some true) [.node "col_1" (some true) []],
     .node "table_y" (some true) [.node "col_2" none []]]

end SchemaConfig

/-! ## Properties of provider.go -/

/-- C4: the ResourcesMap of the provider returned by `Provider` has exactly six entries
under six different names, and it holds a resource for the user, the group, the
destination, the connector and the connector schema config. -/
theorem Provider_ResourcesMap {R : Type} (f : ResourceFuncs R) :
    (Provider f).ResourcesMap.length = 6
    ∧ ((Provider f).ResourcesMap.map Prod.fst).Nodup
    ∧ GoMap.get "fivetran_user" (Provider f).ResourcesMap = some f.resourceUser
    ∧ GoMap.get "fivetran_group" (Provider f).ResourcesMap = some f.resourceGroup
    ∧ GoMap.get "fivetran_destination" (Provider f).ResourcesMap = some f.resourceDestination
    ∧ GoMap.get "fivetran_connector" (Provider f).ResourcesMap = some f.resourceConnector
    ∧ GoMap.get "fivetran_connector_schema_config" (Provider f).ResourcesMap
        = some f.resourceSchemaConfig := by
  refine ⟨rfl, ?_, ?_, ?_, ?_, ?_, ?_⟩
  · simp [Provider]
  all_goals simp [Provider, GoMap.get]

/-- C5: for all strings stored under api_key and api_secret, `providerConfigure` returns
the client built from exactly these two credentials, with the custom user agent
"terraform-provider-fivetran/0.6.5", and an empty list of diagnostics. -/
theorem providerConfigure_client (d : ResourceData) (apiKey apiSecret : String)
    (hkey : d "api_key" = Value.str apiKey) (hsecret : d "api_secret" = Value.str apiSecret) :
    providerConfigure d
      = .ok ({ apiKey := apiKey, apiSecret := apiSecret,
               customUserAgent := "terraform-provider-fivetran/0.6.5" }, [])
    ∧ "terraform-provider-fivetran/" ++ version = "terraform-provider-fivetran/0.6.5" := by
  constructor
  · simp only [providerConfigure, hkey, hsecret, assertString, Client.New,
      Client.CustomUserAgent, version]
    rfl
  · decide

/-- Instance of `providerConfigure_client` for the configuration key/secret. -/
theorem providerConfigure_client_witness :
    providerConfigure (fun k => if k = "api_key" then Value.str "key" else Value.str "secret")
      = .ok ({ apiKey := "key", apiSecret := "secret",
               customUserAgent := "terraform-provider-fivetran/0.6.5" }, [])
    ∧ "terraform-provider-fivetran/" ++ version = "terraform-provider-fivetran/0.6.5" :=
  providerConfigure_client _ "key" "secret" (by simp) (by simp)

/-! ## Properties of tests/mock/common.go -/

namespace Mock

/-- C1: the map `fivetranResponse` encodes as the response body holds statusCode under
"code", message under "message" exactly when message is not empty, data under "data"
exactly when data is not nil, and nothing under any other key; no key occurs twice, and
the response carries the HTTP code as its status and the encoding of that map as its
body. -/
theorem fivetranResponse_body (marshal : Marshal) (t : T) (req : Request) (statusCode : String)
    (code : Int) (message : String) (data : Option GoMap) :
    (∀ k : String, GoMap.get k (respBody statusCode message data)
        = if k = "code" then some (Value.str statusCode)
          else if k = "message" then (if message = "" then none else some (Value.str message))
          else if k = "data" then data.map Value.map
          else none)
    ∧ ((respBody statusCode message data).map Prod.fst).Nodup
    ∧ (fivetranResponse marshal t req statusCode code message data).1.StatusCode = code
    ∧ (fivetranResponse marshal t req statusCode code message data).1.Body
        = (match marshal (respBody statusCode message data) with
           | .ok text => text
           | .error _ => "")
    ∧ fivetranSuccessResponse marshal t req code message data
        = fivetranResponse marshal t req "Success" code message data := by
  refine ⟨?_, ?_, ?_, ?_, rfl⟩
  · intro k
    by_cases hm : message = "" <;> cases data <;>
      by_cases h1 : k = "code" <;> by_cases h2 : k = "message" <;> by_cases h3 : k = "data" <;>
      simp_all [respBody, GoMap.get, GoMap.set, eq_comm]
  · by_cases hm : message = "" <;> cases data <;> simp [respBody, GoMap.set, hm]
  · cases h : marshal (respBody statusCode message data) <;> simp [fivetranResponse, h]
  · cases h : marshal (respBody statusCode message data) <;> simp [fivetranResponse, h]

/-- C8, as the claim states it, fails: with FIVETRAN_APIKEY already set and
FIVETRAN_APISECRET unset, `init` leaves FIVETRAN_APISECRET empty. -/
theorem init_secret_may_stay_empty :
    init (fun k => if k = "FIVETRAN_APIKEY" then "real_key" else "") "FIVETRAN_APISECRET" = ""
    ∧ init (fun k => if k = "FIVETRAN_APIKEY" then "real_key" else "") "FIVETRAN_APIKEY"
        = "real_key" := by
  constructor <;> simp [init, Setenv]

/-- C8, amended: after `init`, TF_ACC and FIVETRAN_APIKEY are non-empty for every initial
environment, and FIVETRAN_APISECRET is non-empty exactly when it was non-empty before or
FIVETRAN_APIKEY was empty before; a variable that was non-empty keeps its value, except
that FIVETRAN_APISECRET becomes the test secret when FIVETRAN_APIKEY was empty. -/
theorem init_env (env : Env) :
    init env "TF_ACC" ≠ ""
    ∧ init env "FIVETRAN_APIKEY" ≠ ""
    ∧ (init env "FIVETRAN_APISECRET" ≠ ""
        ↔ (env "FIVETRAN_APISECRET" ≠ "" ∨ env "FIVETRAN_APIKEY" = ""))
    ∧ init env "TF_ACC" = (if env "TF_ACC" = "" then "True" else env "TF_ACC")
    ∧ init env "FIVETRAN_APIKEY"
        = (if env "FIVETRAN_APIKEY" = "" then TEST_KEY else env "FIVETRAN_APIKEY")
    ∧ init env "FIVETRAN_APISECRET"
        = (if env "FIVETRAN_APIKEY" = "" then TEST_SECRET else env "FIVETRAN_APISECRET") := by
  by_cases h1 : env "TF_ACC" = "" <;> by_cases h2 : env "FIVETRAN_APIKEY" = "" <;>
    simp [init, Setenv, h1, h2, TEST_KEY, TEST_SECRET]

/-- C9: the request that `requestBodyToJson` leaves behind has a fresh, open body that
reads from the start, without error, as exactly the bytes b the helper read from the
original body, whatever the JSON decoder makes of b; method and URL are untouched. -/
theorem requestBodyToJson_restores_body (unmarshal : Unmarshal) (t : T) (req : Request) :
    (ReadAll (requestBodyToJson unmarshal t req).2.2.Body).1 = (ReadAll req.Body).1
    ∧ (ReadAll (requestBodyToJson unmarshal t req).2.2.Body).2.1 = none
    ∧ (requestBodyToJson unmarshal t req).2.2.Body.closed = false
    ∧ (requestBodyToJson unmarshal t req).2.2.Method = req.Method
    ∧ (requestBodyToJson unmarshal t req).2.2.URL = req.URL := by
  simp [requestBodyToJson, ReadAll, NopCloserReader]

/-- What `contains` computes: some element of s is deeply equal to e. -/
theorem contains_iff (s : List Value) (e : Value) :
    contains s e = true ↔ ∃ a ∈ s, DeepEqual a e = true := by
  induction s with
  | nil => simp [contains]
  | cons a rest ih =>
    by_cases h : DeepEqual a e = true
    · simp [contains, h]
    · simp [contains, h, ih]

/-- What the loop of `assertArrayItems` does: it reports the first element of source
that expected does not contain, and nothing when there is none. -/
theorem assertArrayItemsLoop_eq (t : T) (expected source : List Value) :
    assertArrayItemsLoop t expected source
      = (match source.find? (fun a => !contains expected a) with
         | some a =>
           t ++ [TestError.printErrorWithMessage a (.str "")
                   "Expected value not found in provided array"]
         | none => t) := by
  induction source with
  | nil => simp [assertArrayItemsLoop]
  | cons a rest ih =>
    by_cases h : contains expected a = true
    · simp [assertArrayItemsLoop, h, ih, List.find?]
    · simp [assertArrayItemsLoop, h, List.find?, printErrorWithMessage]

/-- What `assertArrayItems` does: for lists of different length it reports "Array size
mismatch" with the two lengths and nothing else; for lists of equal length it reports
"Expected value not found in provided array" for the first value of source that has no
deeply equal element in expected, and nothing when every value of source has one. -/
theorem assertArrayItems_eq (t : T) (source expected : List Value) :
    assertArrayItems t source expected
      = (if source.length ≠ expected.length then
           t ++ [TestError.printErrorWithMessage (.int source.length) (.int expected.length)
                   "Array size mismatch"]
         else match source.find? (fun a => !contains expected a) with
           | some a =>
             t ++ [TestError.printErrorWithMessage a (.str "")
                     "Expected value not found in provided array"]
           | none => t) := by
  unfold assertArrayItems
  split
  · rfl
  · exact assertArrayItemsLoop_eq t expected source

/-- C6 at source [1, 1] and expected [1, 2], two lists of equal length: the value 2 of
expected has no deeply equal element in source, and `assertArrayItems` reports nothing. -/
theorem assertArrayItems_misses_expected_value :
    [Value.int 1, Value.int 1].length = [Value.int 1, Value.int 2].length
    ∧ contains [Value.int 1, Value.int 1] (Value.int 2) = false
    ∧ assertArrayItems [] [Value.int 1, Value.int 1] [Value.int 1, Value.int 2] = [] := by
  refine ⟨rfl, by decide, ?_⟩
  rfl

/-- C7 at source {"k": [1]}, key "k" and value [2]: the key is present and the stored
value differs from the expected one, and `assertKeyExistsAndHasValue` panics on the
comparison of two slices instead of reporting the mismatch; the sibling `assertEqual`
reports it. -/
theorem assertKeyExistsAndHasValue_panics_on_slices :
    assertKeyExistsAndHasValue [] [("k", Value.slice [Value.int 1])] "k"
        (Value.slice [Value.int 2])
      = .error Panic.uncomparable
    ∧ assertEqual [] (Value.slice [Value.int 1]) (Value.slice [Value.int 2])
      = [TestError.printError (Value.slice [Value.int 1]) (Value.slice [Value.int 2])] := by
  constructor
  · rfl
  · rfl

/-- What `assertKeyExistsAndHasValue` does when the comparison is defined: on an absent
key it reports "key not found in source"; on a present key it reports the stored value
against the expected one when they differ and nothing when they are equal. -/
theorem assertKeyExistsAndHasValue_eq (t : T) (source : GoMap) (key : String) (value : Value) :
    assertKeyExistsAndHasValue t source key value
      = (match GoMap.get key source with
         | none => .ok (t ++ [TestError.printError (.str key) (.str "key not found in source")])
         | some v =>
           match interfaceNe v value with
           | .ok true => .ok (t ++ [TestError.printError v value])
           | .ok false => .ok t
           | .error e => .error e) := by
  unfold assertKeyExistsAndHasValue
  cases GoMap.get key source with
  | none => rfl
  | some v =>
    cases h : interfaceNe v value with
    | error e => simp [h, bind, Except.bind]
    | ok b => cases b <;> simp [h, bind, Except.bind, pure, Except.pure, printError]

/-- What `isEmpty` returns on a slice. -/
theorem isEmpty_slice (xs : List Value) : isEmpty (Value.slice xs) = .ok xs.isEmpty := by
  cases xs with
  | nil => rfl
  | cons x rest =>
    have hn : ((((x :: rest).length : Nat) : Int) == 0) = false := by
      simp only [List.length_cons, beq_eq_false_iff_ne, ne_eq]
      omega
    simp only [isEmpty, reflectLen, bind, Except.bind, hn]
    rfl

/-- What `isEmpty` returns on a map. -/
theorem isEmpty_map (kvs : List (String × Value)) :
    isEmpty (Value.map kvs) = .ok kvs.isEmpty := by
  cases kvs with
  | nil => rfl
  | cons x rest =>
    have hn : ((((x :: rest).length : Nat) : Int) == 0) = false := by
      simp only [List.length_cons, beq_eq_false_iff_ne, ne_eq]
      omega
    simp only [isEmpty, reflectLen, bind, Except.bind, hn]
    rfl

/-- The two assertions on a value whose emptiness `isEmpty` decides as b. -/
theorem assertEmpty_assertNotEmpty_of_isEmpty (t : T) (actual : Value) (b : Bool)
    (h : isEmpty actual = .ok b) :
    assertEmpty t actual
        = .ok (if b then t else t ++ [TestError.printError actual (.str "empty value")])
    ∧ assertNotEmpty t actual
        = .ok (if b then t ++ [TestError.printError actual (.str "none-empty value")] else t) := by
  cases b <;> simp [assertEmpty, assertNotEmpty, h, bind, Except.bind, pure, Except.pure,
    printError]

/-- C10: on nil, a string, a slice or a map, `isEmpty` returns without a panic, and it
returns true exactly for nil, the empty string, the slice without elements and the map
without elements; then exactly one of `assertEmpty` and `assertNotEmpty` reports an error:
the second on an empty value, the first on any other. -/
theorem isEmpty_assertEmpty_assertNotEmpty (t : T) (actual : Value)
    (hkind : actual = Value.nil ∨ (∃ s, actual = Value.str s) ∨ (∃ xs, actual = Value.slice xs)
      ∨ (∃ kvs, actual = Value.map kvs)) :
    ∃ b : Bool, isEmpty actual = .ok b
      ∧ (b = true ↔ (actual = Value.nil ∨ actual = Value.str "" ∨ actual = Value.slice []
          ∨ actual = Value.map []))
      ∧ assertEmpty t actual
          = .ok (if b then t else t ++ [TestError.printError actual (.str "empty value")])
      ∧ assertNotEmpty t actual
          = .ok (if b then t ++ [TestError.printError actual (.str "none-empty value")] else t)
      ∧ ∀ e : TestError, t ++ [e] ≠ t := by
  have key : ∃ b : Bool, isEmpty actual = .ok b
      ∧ (b = true ↔ (actual = Value.nil ∨ actual = Value.str "" ∨ actual = Value.slice []
          ∨ actual = Value.map [])) := by
    rcases hkind with h | ⟨s, h⟩ | ⟨xs, h⟩ | ⟨kvs, h⟩
    · subst h
      exact ⟨true, rfl, by simp⟩
    · subst h
      refine ⟨s == "", rfl, by simp⟩
    · subst h
      refine ⟨xs.isEmpty, isEmpty_slice xs, by simp [List.isEmpty_iff]⟩
    · subst h
      refine ⟨kvs.isEmpty, isEmpty_map kvs, by simp [List.isEmpty_iff]⟩
  obtain ⟨b, hb, hiff⟩ := key
  have h2 := assertEmpty_assertNotEmpty_of_isEmpty t actual b hb
  exact ⟨b, hb, hiff, h2.1, h2.2, by simp⟩

/-- Instance of `isEmpty_assertEmpty_assertNotEmpty` for a slice of one element and an
empty log. -/
theorem isEmpty_assertEmpty_assertNotEmpty_witness :
    ∃ b : Bool, isEmpty (Value.slice [Value.int 7]) = .ok b
      ∧ (b = true ↔ (Value.slice [Value.int 7] = Value.nil
          ∨ Value.slice [Value.int 7] = Value.str ""
          ∨ Value.slice [Value.int 7] = Value.slice []
          ∨ Value.slice [Value.int 7] = Value.map []))
      ∧ assertEmpty [] (Value.slice [Value.int 7])
          = .ok (if b then []
                 else [] ++ [TestError.printError (Value.slice [Value.int 7]) (.str "empty value")])
      ∧ assertNotEmpty [] (Value.slice [Value.int 7])
          = .ok (if b then
                   [] ++ [TestError.printError (Value.slice [Value.int 7]) (.str "none-empty value")]
                 else [])
      ∧ ∀ e : TestError, [] ++ [e] ≠ [] :=
  isEmpty_assertEmpty_assertNotEmpty [] (Value.slice [Value.int 7])
    (Or.inr (Or.inr (Or.inl ⟨[Value.int 7], rfl⟩)))


end Mock

/-! ## Properties of the schema tree differ -/

namespace SchemaConfig

/-- In a mapping, the child stored under the name of a child is that child. -/
theorem findChild_of_mem (cs : List SchemaTreeNode) (hnodup : (siblingNames cs).Nodup)
    (c : SchemaTreeNode) (hc : c ∈ cs) : findChild c.name cs = some c := by
  induction cs with
  | nil => cases hc
  | cons a rest ih =>
    simp only [siblingNames, List.nodup_cons] at hnodup
    rcases List.mem_cons.mp hc with h | h
    · subst h
      simp [findChild]
    · have hne : a.name ≠ c.name := by
        intro heq
        apply hnodup.1
        rw [heq]
        clear ih hc hnodup heq
        induction rest with
        | nil => cases h
        | cons b more ih2 =>
          rcases List.mem_cons.mp h with h2 | h2
          · subst h2
            simp [siblingNames]
          · simp [siblingNames, ih2 h2]
      simp [findChild, hne, ih hnodup.2 h]

/-- Below the ancestors' effective inclusion, a node is effectively excluded exactly when
an ancestor is or the node's own flag says so. -/
theorem effectiveInclusion_excluded (inherited flag : Option Bool) :
    decide (effectiveInclusion inherited flag = some false)
      = (decide (inherited = some false) || decide (flag = some false)) := by
  rcases inherited with _ | _ | _ <;> rcases flag with _ | _ | _ <;> rfl

/-- A node diffed against itself gets no patch of its own exactly when it is not
explicitly included below an excluded ancestor. -/
theorem flagPatch_same_eq_nil (path : List String) (inherited flag : Option Bool) :
    flagPatch path flag (effectiveInclusion inherited flag) = []
      ↔ (!(decide (inherited = some false) && decide (flag = some true))) = true := by
  rcases inherited with _ | _ | _ <;> rcases flag with _ | _ | _ <;>
    simp [flagPatch, effectiveInclusion]

mutual
/-- A tree diffed against itself, below any ancestors, gives no patch exactly when no node
is explicitly included below an excluded one. -/
theorem diffNode_same : ∀ (t : SchemaTreeNode) (path : List String) (inherited : Option Bool),
    isMapping t = true →
    (diffNode path inherited t t = .ok []
      ↔ includedOnlyUnderIncluded (decide (inherited = some false)) t = true)
  | .node n f cs, path, inherited, h => by
    simp only [isMapping, Bool.and_eq_true, decide_eq_true_eq] at h
    have ih := diffChildren_same cs cs (path ++ [n]) (effectiveInclusion inherited f) h.2
      (fun d hd => findChild_of_mem cs h.1 d hd)
    rw [effectiveInclusion_excluded] at ih
    simp only [diffNode, includedOnlyUnderIncluded, Bool.and_eq_true]
    rw [← flagPatch_same_eq_nil (path ++ [n]) inherited f, ← ih]
    cases hc : diffChildren (path ++ [n]) (effectiveInclusion inherited f) cs cs with
    | error e => simp
    | ok below => simp
/-- Desired children that are all stored in the observed mapping give no patch exactly
when none of them has a node explicitly included below an excluded one. -/
theorem diffChildren_same : ∀ (ds observed : List SchemaTreeNode) (path : List String)
    (inherited : Option Bool), areMappings ds = true →
    (∀ d ∈ ds, findChild d.name observed = some d) →
    (diffChildren path inherited ds observed = .ok []
      ↔ allIncludedOnlyUnderIncluded (decide (inherited = some false)) ds = true)
  | [], _, _, _, _, _ => by simp [diffChildren, allIncludedOnlyUnderIncluded]
  | d :: rest, observed, path, inherited, h, hfind => by
    simp only [areMappings, Bool.and_eq_true] at h
    have h1 := diffNode_same d path inherited h.1
    have h2 := diffChildren_same rest observed path inherited h.2
      (fun x hx => hfind x (List.mem_cons_of_mem d hx))
    simp only [diffChildren, hfind d (List.mem_cons_self d rest), allIncludedOnlyUnderIncluded,
      Bool.and_eq_true]
    rw [← h1, ← h2]
    cases hd : diffNode path inherited d d with
    | error e => simp
    | ok first =>
      cases hr : diffChildren path inherited rest observed with
      | error e => simp
      | ok others => simp
end

/-- C2, as the claim states it, fails: on an excluded schema that holds a table with an
include flag of its own, the differ with desired and observed both this tree returns a
set-field patch for the table, whose effective inclusion in the observed tree is
excluded. -/
theorem Diff_same_tree_may_patch :
    isMapping exampleExcludedSchema = true
    ∧ Diff exampleExcludedSchema exampleExcludedSchema
        = .ok [{ kind := .setField, path := ["schema_a", "table_x"], value := true }]
    ∧ Diff exampleExcludedSchema exampleExcludedSchema ≠ .ok [] := by
  refine ⟨by decide, rfl, ?_⟩
  intro h
  have h2 : Diff exampleExcludedSchema exampleExcludedSchema
      = .ok [{ kind := .setField, path := ["schema_a", "table_x"], value := true }] := rfl
  rw [h2] at h
  cases h

/-- C2, amended: for every schema tree t whose child lists are mappings (one child per
name), the differ returns the empty patch sequence when desired and observed are both t
exactly when no node of t is explicitly included below an explicitly excluded
ancestor. -/
theorem Diff_same_tree (t : SchemaTreeNode) (hmap : isMapping t = true) :
    Diff t t = .ok [] ↔ flagsAreEffective t = true := by
  have h := diffNode_same t [] none hmap
  simpa [Diff, flagsAreEffective] using h

/-- Instance of `Diff_same_tree` for the observed tree with two tables, which has its
flags effective and diffs to nothing. -/
theorem Diff_same_tree_witness :
    isMapping exampleObservedWide = true
    ∧ flagsAreEffective exampleObservedWide = true
    ∧ (Diff exampleObservedWide exampleObservedWide = .ok []
        ↔ flagsAreEffective exampleObservedWide = true) :=
  ⟨by decide, by decide, Diff_same_tree exampleObservedWide (by decide)⟩

/-- The first example of section 8: one column excluded, table and schema unchanged. -/
theorem Diff_example :
    Diff exampleDesired exampleObserved
      = .ok [{ kind := .setField, path := ["schema_a", "table_x", "col_1"], value := false }] := by
  rfl

mutual
/-- A non-empty path that has an extension among the paths of a tree is a path of the
tree. -/
theorem nodePaths_closed : ∀ (t : SchemaTreeNode) (p r : List String),
    p ≠ [] → p ++ r ∈ nodePaths t → p ∈ nodePaths t
  | .node n f cs, p, r, hp, h => by
    cases p with
    | nil => exact absurd rfl hp
    | cons a rest =>
      simp only [nodePaths, List.cons_append, List.mem_cons, List.cons.injEq, List.mem_map] at h ⊢
      rcases h with ⟨ha, hr⟩ | ⟨q, hq, hq2, hq3⟩
      · left
        exact ⟨ha, (List.append_eq_nil.mp hr).1⟩
      · subst hq2
        by_cases hrest : rest = []
        · left
          exact ⟨rfl, hrest⟩
        · right
          refine ⟨rest, ?_, rfl, rfl⟩
          apply childrenPaths_closed cs rest r hrest
          rw [← hq3]
          exact hq
/-- The same for the paths of a list of siblings. -/
theorem childrenPaths_closed : ∀ (cs : List SchemaTreeNode) (p r : List String),
    p ≠ [] → p ++ r ∈ childrenPaths cs → p ∈ childrenPaths cs
  | [], _, _, _, h => by simp [childrenPaths] at h
  | c :: rest, p, r, hp, h => by
    simp only [childrenPaths, List.mem_append] at h ⊢
    rcases h with h | h
    · exact Or.inl (nodePaths_closed c p r hp h)
    · exact Or.inr (childrenPaths_closed rest p r hp h)
end

mutual
/-- Every patch of a node diff is a set-field addressed to a node of the desired tree. -/
theorem diffNode_paths : ∀ (d o : SchemaTreeNode) (path : List String) (inherited : Option Bool)
    (ops : List PatchOp), diffNode path inherited d o = .ok ops →
    ∀ op ∈ ops, op.kind = PatchKind.setField ∧ ∃ q ∈ nodePaths d, op.path = path ++ q
  | .node n f cs, .node m g os, path, inherited, ops, h => by
    simp only [diffNode] at h
    cases hc : diffChildren (path ++ [n]) (effectiveInclusion inherited g) cs os with
    | error e => simp [hc] at h
    | ok below =>
      simp only [hc, Except.ok.injEq] at h
      subst h
      intro op hop
      rcases List.mem_append.mp hop with hown | hbelow
      · refine ⟨?_, [n], by simp [nodePaths], ?_⟩
        · cases f with
          | none => simp [flagPatch] at hown
          | some b =>
            simp only [flagPatch] at hown
            split at hown
            · cases hown
            · simp only [List.mem_singleton] at hown
              rw [hown]
        · cases f with
          | none => simp [flagPatch] at hown
          | some b =>
            simp only [flagPatch] at hown
            split at hown
            · cases hown
            · simp only [List.mem_singleton] at hown
              rw [hown]
      · obtain ⟨hk, q, hq, hpath⟩ :=
          diffChildren_paths cs os (path ++ [n]) (effectiveInclusion inherited g) below hc op hbelow
        refine ⟨hk, n :: q, ?_, ?_⟩
        · simp only [nodePaths, List.mem_cons, List.mem_map]
          exact Or.inr ⟨q, hq, rfl⟩
        · rw [hpath]
          simp
/-- Every patch of a children diff is a set-field addressed to a node below a desired
child. -/
theorem diffChildren_paths : ∀ (ds os : List SchemaTreeNode) (path : List String)
    (inherited : Option Bool) (ops : List PatchOp), diffChildren path inherited ds os = .ok ops →
    ∀ op ∈ ops, op.kind = PatchKind.setField ∧ ∃ q ∈ childrenPaths ds, op.path = path ++ q
  | [], _, _, _, ops, h => by
    simp only [diffChildren, Except.ok.injEq] at h
    subst h
    intro op hop
    cases hop
  | d :: rest, os, path, inherited, ops, h => by
    simp only [diffChildren] at h
    cases hf : findChild d.name os with
    | none => simp [hf] at h
    | some o =>
      cases h1 : diffNode path inherited d o with
      | error e => simp [hf, h1] at h
      | ok first =>
        cases h2 : diffChildren path inherited rest os with
        | error e => simp [hf, h1, h2] at h
        | ok others =>
          simp only [hf, h1, h2, Except.ok.injEq] at h
          subst h
          intro op hop
          rcases List.mem_append.mp hop with hop1 | hop2
          · obtain ⟨hk, q, hq, hpath⟩ := diffNode_paths d o path inherited first h1 op hop1
            exact ⟨hk, q, by simp [childrenPaths, hq], hpath⟩
          · obtain ⟨hk, q, hq, hpath⟩ :=
              diffChildren_paths rest os path inherited others h2 op hop2
            exact ⟨hk, q, by simp [childrenPaths, hq], hpath⟩
end

/-- The paths of a tree are not empty. -/
theorem nodePaths_ne_nil (t : SchemaTreeNode) (p : List String) (h : p ∈ nodePaths t) :
    p ≠ [] := by
  cases t with
  | node n f cs =>
    simp only [nodePaths, List.mem_cons, List.mem_map] at h
    rcases h with h | ⟨q, _, h⟩
    · simp [h]
    · rw [← h]
      simp

/-- C3: when a branch (a schema, table or column at path p) is present in observed and not
mentioned in desired, every PatchOp of Diff(desired, observed) is a set-field, hence no
remove-child, and none has a path in the branch, that is a path that starts with p. -/
theorem Diff_spares_omitted_branch (desired observed : SchemaTreeNode) (p : List String)
    (ops : List PatchOp) (hobserved : mentions observed p) (homitted : ¬ mentions desired p)
    (hdiff : Diff desired observed = .ok ops) :
    ∀ op ∈ ops, op.kind = PatchKind.setField ∧ op.kind ≠ PatchKind.removeChild
      ∧ ¬ (p <+: op.path) := by
  intro op hop
  unfold Diff at hdiff
  split at hdiff
  · obtain ⟨hk, q, hq, hpath⟩ := diffNode_paths desired observed [] none ops hdiff op hop
    refine ⟨hk, by simp [hk], ?_⟩
    rintro ⟨r, hr⟩
    apply homitted
    simp only [List.nil_append] at hpath
    rw [hpath] at hr
    rw [← hr] at hq
    exact nodePaths_closed desired p r (nodePaths_ne_nil observed p hobserved) hq
  · cases hdiff

/-- Instance of `Diff_spares_omitted_branch`: table_y is observed and not mentioned in the
desired tree of the example, and the one patch of the diff addresses col_1 of table_x. -/
theorem Diff_spares_omitted_branch_witness :
    mentions exampleObservedWide ["schema_a", "table_y"]
    ∧ ¬ mentions exampleDesired ["schema_a", "table_y"]
    ∧ Diff exampleDesired exampleObservedWide
        = .ok [{ kind := .setField, path := ["schema_a", "table_x", "col_1"], value := false }]
    ∧ ∀ op ∈ [({ kind := .setField, path := ["schema_a", "table_x", "col_1"], value := false }
                : PatchOp)],
        op.kind = PatchKind.setField ∧ op.kind ≠ PatchKind.removeChild
          ∧ ¬ (["schema_a", "table_y"] <+: op.path) :=
  ⟨by decide, by decide, rfl,
    Diff_spares_omitted_branch exampleDesired exampleObservedWide ["schema_a", "table_y"] _
      (by decide) (by decide) rfl⟩

end SchemaConfig

end Fivetran
